import Mathlib

/-!
Shallow embedding of the `ShambaLuvAirdrop` Solidity contract
(src/unnamed/part_000) and proofs about its claim-and-accounting state
machine.

Modelling choices:
* Addresses and token identifiers are `Nat`; `0` is the null address.
* `uint256` values are `Nat`; Solidity 0.8 checked arithmetic is modelled
  by an explicit overflow test (`U256`) that makes the operation revert.
* The external ERC20 token world is a `World`: per-token balances plus a
  boolean oracle saying whether a given `transfer`/`transferFrom` call
  succeeds (an ERC20 call may fail for reasons of its own; a transfer of
  more than the sender holds always fails).
* Reverting operations return `Except Err …`; an `error` result carries no
  state, which models full rollback of a reverted transaction.
* The OpenZeppelin `ReentrancyGuard` status is the `locked` flag; the
  `nonReentrant` modifier is inlined around each guarded function exactly
  as the modifier expands in the source.
-/

/-- Upper bound of `uint256`: checked arithmetic reverts at or above this. -/
def U256 : Nat := 2 ^ 256

/-- The address of the airdrop contract itself (`address(this)`). -/
def contractAddr : Nat := 10

/-- Per-token airdrop configuration, mirroring `struct AirdropConfig`. -/
structure AirdropConfig where
  amount : Nat
  isActive : Bool
  totalClaimed : Nat
  totalRecipients : Nat
deriving Repr, DecidableEq

/-- A Solidity mapping value is zero-initialised: absent entries read as this. -/
def AirdropConfig.zero : AirdropConfig :=
  { amount := 0, isActive := false, totalClaimed := 0, totalRecipients := 0 }

/-- The external ERC20 world: balances per (token, holder), plus an oracle
saying whether a particular transfer call is allowed to succeed. -/
structure World where
  balances : Nat → Nat → Nat
  transferOk : Nat → Nat → Nat → Nat → Bool

/-- Pointwise update of a one-argument map. -/
def updFn {α : Type} (f : Nat → α) (x : Nat) (v : α) : Nat → α :=
  fun a => if a = x then v else f a

/-- Move `amt` of token `t` from `src` to `dst`; `none` models a reverting or
false-returning ERC20 call (insufficient balance, or the oracle says no). -/
def World.move (w : World) (t src dst amt : Nat) : Option World :=
  if amt ≤ w.balances t src ∧ w.transferOk t src dst amt then
    let b1 := updFn w.balances t (updFn (w.balances t) src (w.balances t src - amt))
    let b2 := updFn b1 t (updFn (b1 t) dst (b1 t dst + amt))
    some { w with balances := b2 }
  else none

/-- Revert reasons of the contract, one per distinct require/guard failure. -/
inductive Err where
  | invalidToken
  | invalidRecipient
  | invalidAmount
  | alreadyClaimed
  | notActive
  | amountUnset
  | insufficientFunds
  | insufficientBalance
  | transferFailed
  | notOwner
  | reentrancy
  | overflow
deriving Repr, DecidableEq

/-- Storage of the `ShambaLuvAirdrop` contract. `locked` is the
`ReentrancyGuard` status; `owner` and `defaultToken` are set at
construction. -/
structure ContractState where
  owner : Nat
  defaultToken : Nat
  tokenConfigs : Nat → AirdropConfig
  hasClaimed : Nat → Nat → Bool
  locked : Bool

/-- Constructor: rejects the null default token, records the deployer as
owner and installs the default token configuration (1 trillion · 1e18,
active, zero totals). -/
def ctor (deployer defTok : Nat) : Except Err ContractState :=
  if defTok = 0 then .error .invalidToken
  else
    .ok { owner := deployer
          defaultToken := defTok
          tokenConfigs := updFn (fun _ => AirdropConfig.zero) defTok
            { amount := 1000000000000 * 10 ^ 18
              isActive := true
              totalClaimed := 0
              totalRecipients := 0 }
          hasClaimed := fun _ _ => false
          locked := false }

/-- The bookkeeping block of `claimAirdropForToken` (lines 75–78): mark the
claim record, add `amount` to `totalClaimed`, bump `totalRecipients`.
Executed before the external transfer call. -/
def claimMark (s : ContractState) (caller token : Nat) : ContractState :=
  let config := s.tokenConfigs token
  { s with
    hasClaimed := updFn s.hasClaimed token (updFn (s.hasClaimed token) caller true)
    tokenConfigs := updFn s.tokenConfigs token
      { config with
        totalClaimed := config.totalClaimed + config.amount
        totalRecipients := config.totalRecipients + 1 } }

/-- Body of `claimAirdropForToken` without its `nonReentrant` modifier:
the five requires in source order, the checked additions, the bookkeeping,
then the external transfer whose failure reverts everything. -/
def claimInner (w : World) (s : ContractState) (caller token : Nat) :
    Except Err (ContractState × World) :=
  if token = 0 then .error .invalidToken
  else if s.hasClaimed token caller then .error .alreadyClaimed
  else if (s.tokenConfigs token).isActive = false then .error .notActive
  else if (s.tokenConfigs token).amount = 0 then .error .amountUnset
  else if w.balances token contractAddr < (s.tokenConfigs token).amount then
    .error .insufficientFunds
  else if U256 ≤ (s.tokenConfigs token).totalClaimed + (s.tokenConfigs token).amount then
    .error .overflow
  else if U256 ≤ (s.tokenConfigs token).totalRecipients + 1 then .error .overflow
  else
    match w.move token contractAddr caller (s.tokenConfigs token).amount with
    | some w1 => .ok (claimMark s caller token, w1)
    | none => .error .transferFailed

/-- `claimAirdropForToken(token)`: `nonReentrant` guard around `claimInner`. -/
def claimAirdropForToken (w : World) (s : ContractState) (caller token : Nat) :
    Except Err (ContractState × World) :=
  if s.locked then .error .reentrancy
  else
    match claimInner w { s with locked := true } caller token with
    | .ok (s1, w1) => .ok ({ s1 with locked := false }, w1)
    | .error e => .error e

/-- `claimAirdrop()`: its own `nonReentrant` guard, then an internal call of
the public (and itself `nonReentrant`) `claimAirdropForToken` on the default
token — exactly the structure of the source. -/
def claimAirdrop (w : World) (s : ContractState) (caller : Nat) :
    Except Err (ContractState × World) :=
  if s.locked then .error .reentrancy
  else
    match claimAirdropForToken w { s with locked := true } caller s.defaultToken with
    | .ok (s1, w1) => .ok ({ s1 with locked := false }, w1)
    | .error e => .error e

/-- View `hasUserClaimed(token, user)`. -/
def hasUserClaimed (s : ContractState) (token user : Nat) : Bool :=
  s.hasClaimed token user

/-- View `getAirdropStats(token)`. -/
def getAirdropStats (w : World) (s : ContractState) (token : Nat) :
    Nat × Nat × Nat × Nat × Bool :=
  ((s.tokenConfigs token).amount,
   (s.tokenConfigs token).totalClaimed,
   (s.tokenConfigs token).totalRecipients,
   w.balances token contractAddr,
   (s.tokenConfigs token).isActive)

/-- `setAirdropConfig(token, amount, isActive)`: owner-only, rejects the null
token, then unconditionally overwrites `amount` and `isActive`. -/
def setAirdropConfig (s : ContractState) (caller token amount : Nat)
    (isActive : Bool) : Except Err ContractState :=
  if caller ≠ s.owner then .error .notOwner
  else if token = 0 then .error .invalidToken
  else
    .ok { s with
          tokenConfigs := updFn s.tokenConfigs token
            { s.tokenConfigs token with amount := amount, isActive := isActive } }

/-- `setAirdropAmount(newAmount)`: owner-only; overwrites the default token
amount and forces `isActive := true`. -/
def setAirdropAmount (s : ContractState) (caller newAmount : Nat) :
    Except Err ContractState :=
  if caller ≠ s.owner then .error .notOwner
  else if s.defaultToken = 0 then .error .invalidToken
  else
    .ok { s with
          tokenConfigs := updFn s.tokenConfigs s.defaultToken
            { s.tokenConfigs s.defaultToken with
              amount := newAmount, isActive := true } }

/-- `depositTokens(token, amount)`: owner pulls `amount` into custody via
`transferFrom`; contract storage is untouched. -/
def depositTokens (w : World) (s : ContractState) (caller token amount : Nat) :
    Except Err (ContractState × World) :=
  if caller ≠ s.owner then .error .notOwner
  else if token = 0 then .error .invalidToken
  else if amount = 0 then .error .invalidAmount
  else
    match w.move token caller contractAddr amount with
    | some w1 => .ok (s, w1)
    | none => .error .transferFailed

/-- `withdrawTokens(token, amount)`: owner moves `amount` from custody to
itself; requires a sufficient custodial balance. -/
def withdrawTokens (w : World) (s : ContractState) (caller token amount : Nat) :
    Except Err (ContractState × World) :=
  if caller ≠ s.owner then .error .notOwner
  else if token = 0 then .error .invalidToken
  else if amount = 0 then .error .invalidAmount
  else if w.balances token contractAddr < amount then .error .insufficientBalance
  else
    match w.move token contractAddr caller amount with
    | some w1 => .ok (s, w1)
    | none => .error .transferFailed

/-- `emergencyWithdraw(token)`: owner sweeps the whole custodial balance; a
zero balance skips the transfer entirely and succeeds. -/
def emergencyWithdraw (w : World) (s : ContractState) (caller token : Nat) :
    Except Err (ContractState × World) :=
  if caller ≠ s.owner then .error .notOwner
  else if token = 0 then .error .invalidToken
  else if w.balances token contractAddr = 0 then .ok (s, w)
  else
    match w.move token contractAddr caller (w.balances token contractAddr) with
    | some w1 => .ok (s, w1)
    | none => .error .transferFailed

/-- `rescueTokens(token, to, amount)`: like withdraw but to an arbitrary
non-null recipient. -/
def rescueTokens (w : World) (s : ContractState) (caller token dst amount : Nat) :
    Except Err (ContractState × World) :=
  if caller ≠ s.owner then .error .notOwner
  else if token = 0 then .error .invalidToken
  else if dst = 0 then .error .invalidRecipient
  else if amount = 0 then .error .invalidAmount
  else if w.balances token contractAddr < amount then .error .insufficientBalance
  else
    match w.move token contractAddr dst amount with
    | some w1 => .ok (s, w1)
    | none => .error .transferFailed

/-- `rescueAllTokens(token, to)`: sweep the custodial balance to `to`; a zero
balance is a silent no-op. -/
def rescueAllTokens (w : World) (s : ContractState) (caller token dst : Nat) :
    Except Err (ContractState × World) :=
  if caller ≠ s.owner then .error .notOwner
  else if token = 0 then .error .invalidToken
  else if dst = 0 then .error .invalidRecipient
  else if w.balances token contractAddr = 0 then .ok (s, w)
  else
    match w.move token contractAddr dst (w.balances token contractAddr) with
    | some w1 => .ok (s, w1)
    | none => .error .transferFailed

/-- The state-mutating entry points of the contract (the view functions have
no effect on storage). Default-token variants are separate constructors, as
in the source. -/
inductive Op where
  | claimAirdrop (caller : Nat)
  | claimAirdropForToken (caller token : Nat)
  | setAirdropConfig (caller token amount : Nat) (isActive : Bool)
  | setAirdropAmount (caller newAmount : Nat)
  | depositTokens (caller token amount : Nat)
  | depositTokensDefault (caller amount : Nat)
  | withdrawTokens (caller token amount : Nat)
  | withdrawTokensDefault (caller amount : Nat)
  | emergencyWithdraw (caller token : Nat)
  | emergencyWithdrawDefault (caller : Nat)
  | rescueTokens (caller token dst amount : Nat)
  | rescueAllTokens (caller token dst : Nat)
deriving Repr, DecidableEq

/-- One transaction against the contract; `error` is a revert. -/
def step (w : World) (s : ContractState) : Op → Except Err (ContractState × World)
  | .claimAirdrop caller => claimAirdrop w s caller
  | .claimAirdropForToken caller token => claimAirdropForToken w s caller token
  | .setAirdropConfig caller token amount isActive =>
      (setAirdropConfig s caller token amount isActive).map (fun s1 => (s1, w))
  | .setAirdropAmount caller newAmount =>
      (setAirdropAmount s caller newAmount).map (fun s1 => (s1, w))
  | .depositTokens caller token amount => depositTokens w s caller token amount
  | .depositTokensDefault caller amount =>
      depositTokens w s caller s.defaultToken amount
  | .withdrawTokens caller token amount => withdrawTokens w s caller token amount
  | .withdrawTokensDefault caller amount =>
      withdrawTokens w s caller s.defaultToken amount
  | .emergencyWithdraw caller token => emergencyWithdraw w s caller token
  | .emergencyWithdrawDefault caller => emergencyWithdraw w s caller s.defaultToken
  | .rescueTokens caller token dst amount => rescueTokens w s caller token dst amount
  | .rescueAllTokens caller token dst => rescueAllTokens w s caller token dst

/-- Contract storage after one transaction: a revert leaves it unchanged. -/
def execOp (w : World) (s : ContractState) (op : Op) : ContractState :=
  match step w s op with
  | .ok (s1, _) => s1
  | .error _ => s

/-- Run a sequence of transactions; each comes with the token world it sees,
so the environment may change balances arbitrarily between transactions. -/
def run (s : ContractState) : List (World × Op) → ContractState
  | [] => s
  | (w, op) :: l => run (execOp w s op) l

/-- Whether a transaction result is a success. -/
def stepOk (r : Except Err (ContractState × World)) : Bool :=
  match r with
  | .ok _ => true
  | .error _ => false

/-- The amounts paid out by one transaction for token `T`: the amount in
effect at execution time if the transaction is a successful claim of `T`,
nothing otherwise. -/
def claimEvent (w : World) (s : ContractState) (T : Nat) (op : Op) : List Nat :=
  match op with
  | .claimAirdrop caller =>
      if stepOk (step w s (.claimAirdrop caller)) ∧ s.defaultToken = T then
        [(s.tokenConfigs T).amount]
      else []
  | .claimAirdropForToken caller token =>
      if stepOk (step w s (.claimAirdropForToken caller token)) ∧ token = T then
        [(s.tokenConfigs T).amount]
      else []
  | _ => []

/-- All claim payouts for token `T` along a trace, each at the amount in
effect when that claim executed. -/
def claimTrace (s : ContractState) (T : Nat) : List (World × Op) → List Nat
  | [] => []
  | (w, op) :: l => claimEvent w s T op ++ claimTrace (execOp w s op) T l

/-- The accounting invariant of claim C7: for every token, `totalRecipients`
is the cardinality of the set of addresses whose claim flag is set. -/
def recipientsExact (s : ContractState) : Prop :=
  ∀ T, ∃ A : Finset Nat,
    (∀ a, s.hasClaimed T a = true ↔ a ∈ A) ∧
    A.card = (s.tokenConfigs T).totalRecipients

/-- A concrete token world for witnesses: token 7 funds the contract with
exactly the default allotment, and every transfer call is allowed. -/
def exWorld : World :=
  { balances := fun t a => if t = 7 ∧ a = contractAddr then 1000000000000 * 10 ^ 18 else 0
    transferOk := fun _ _ _ _ => true }

/-- A token world whose transfer calls always fail, for the rollback claims. -/
def failWorld : World :=
  { balances := fun t a => if t = 7 ∧ a = contractAddr then 1000000000000 * 10 ^ 18 else 0
    transferOk := fun _ _ _ _ => false }

/-- The storage produced by deploying with owner 1 and default token 7. -/
def exState : ContractState :=
  { owner := 1
    defaultToken := 7
    tokenConfigs := updFn (fun _ => AirdropConfig.zero) 7
      { amount := 1000000000000 * 10 ^ 18
        isActive := true
        totalClaimed := 0
        totalRecipients := 0 }
    hasClaimed := fun _ _ => false
    locked := false }

/-- The storage after claimant 5 successfully claims token 7 from `exState`. -/
def exClaimed : ContractState :=
  { claimMark { exState with locked := true } 5 7 with locked := false }

/-- The token world after the outbound transfer of the claim above. -/
def exWorldAfter : World :=
  match exWorld.move 7 contractAddr 5 ((exState.tokenConfigs 7).amount) with
  | some w => w
  | none => exWorld

lemma claimMark_hasClaimed (s : ContractState) (c t T A : Nat) :
    (claimMark s c t).hasClaimed T A =
      if T = t ∧ A = c then true else s.hasClaimed T A := by
  by_cases hT : T = t <;> by_cases hA : A = c <;>
    simp [claimMark, updFn, hT, hA]

lemma claimMark_tokenConfigs (s : ContractState) (c t T : Nat) :
    (claimMark s c t).tokenConfigs T =
      if T = t then
        { s.tokenConfigs t with
          totalClaimed := (s.tokenConfigs t).totalClaimed + (s.tokenConfigs t).amount
          totalRecipients := (s.tokenConfigs t).totalRecipients + 1 }
      else s.tokenConfigs T := by
  by_cases hT : T = t <;> simp [claimMark, updFn, hT]

lemma claimMark_owner (s : ContractState) (c t : Nat) :
    (claimMark s c t).owner = s.owner := rfl

lemma claimMark_defaultToken (s : ContractState) (c t : Nat) :
    (claimMark s c t).defaultToken = s.defaultToken := rfl

lemma claimMark_locked (s : ContractState) (c t : Nat) :
    (claimMark s c t).locked = s.locked := rfl

lemma claimInner_ok_iff {w : World} {s : ContractState} {caller token : Nat}
    {s1 : ContractState} {w1 : World} :
    claimInner w s caller token = .ok (s1, w1) ↔
      token ≠ 0 ∧ s.hasClaimed token caller = false ∧
      (s.tokenConfigs token).isActive = true ∧
      (s.tokenConfigs token).amount ≠ 0 ∧
      (s.tokenConfigs token).amount ≤ w.balances token contractAddr ∧
      (s.tokenConfigs token).totalClaimed + (s.tokenConfigs token).amount < U256 ∧
      (s.tokenConfigs token).totalRecipients + 1 < U256 ∧
      w.move token contractAddr caller (s.tokenConfigs token).amount = some w1 ∧
      s1 = claimMark s caller token := by
  unfold claimInner
  split_ifs with h1 h2 h3 h4 h5 h6 h7 <;>
    simp_all [not_lt, Nat.lt_iff_add_one_le]
  · cases hmv : w.move token contractAddr caller (s.tokenConfigs token).amount with
    | some w2 => simp [hmv, and_comm, eq_comm]
    | none => simp [hmv]

lemma claimAirdropForToken_ok_iff {w : World} {s : ContractState}
    {caller token : Nat} {s1 : ContractState} {w1 : World} :
    claimAirdropForToken w s caller token = .ok (s1, w1) ↔
      s.locked = false ∧ ∃ s2,
        claimInner w { s with locked := true } caller token = .ok (s2, w1) ∧
        s1 = { s2 with locked := false } := by
  unfold claimAirdropForToken
  by_cases hl : s.locked
  · simp [hl]
  · cases hmv : claimInner w { s with locked := true } caller token with
    | ok p =>
        cases p with
        | mk s2 w2 =>
            simp only [hl, if_false, Bool.false_eq_true, hmv]
            constructor
            · intro h
              injection h with h2
              injection h2 with hs hw
              exact ⟨by simp [hl], s2, by simp [hw], hs.symm⟩
            · rintro ⟨-, s3, h2, h3⟩
              injection h2 with h4
              injection h4 with hs hw
              subst hw
              subst h3
              subst hs
              rfl
    | error e => simp [hl, hmv]

lemma claimAirdropForToken_locked (w : World) (s : ContractState) (a t : Nat)
    (h : s.locked = true) :
    claimAirdropForToken w s a t = .error .reentrancy := by
  unfold claimAirdropForToken
  simp [h]

lemma ctor_exState : ctor 1 7 = .ok exState := rfl

/-- C1: the claim is that `claimAirdrop()` behaves identically to
`claimAirdropForToken(defaultToken)`. The code violates it: both functions
carry the `nonReentrant` modifier and `claimAirdrop` calls the public
`claimAirdropForToken` internally, so the reentrancy guard makes
`claimAirdrop` revert on every input, while the direct call succeeds on a
funded, active default token. -/
theorem claimAirdrop_always_reverts :
    (∀ (w : World) (s : ContractState) (caller : Nat),
      claimAirdrop w s caller = Except.error Err.reentrancy) ∧
    stepOk (claimAirdropForToken exWorld exState 5 7) = true := by
  constructor
  · intro w s caller
    unfold claimAirdrop
    by_cases hl : s.locked
    · simp [hl]
    · simp only [hl, Bool.false_eq_true, if_false]
      rw [claimAirdropForToken_locked _ _ _ _ rfl]
  · rfl

/-- C3 counterexample: at a concrete input where the claim bookkeeping has
completed and the outbound transfer is in flight, a reentrant claim for the
same (token, claimant) fails with the reentrancy-guard error, not with
`AlreadyClaimed` as the claim states. -/
theorem reentrant_claim_sees_guard_not_alreadyClaimed :
    claimAirdropForToken failWorld exState 5 7 = .error .transferFailed ∧
    (claimMark { exState with locked := true } 5 7).hasClaimed 7 5 = true ∧
    claimAirdropForToken exWorld (claimMark { exState with locked := true } 5 7) 5 7 =
      .error .reentrancy ∧
    Err.reentrancy ≠ Err.alreadyClaimed := by
  refine ⟨rfl, rfl, ?_, by decide⟩
  exact claimAirdropForToken_locked _ _ _ _ rfl

lemma claimAirdrop_err (w : World) (s : ContractState) (caller : Nat) :
    claimAirdrop w s caller = .error .reentrancy := by
  unfold claimAirdrop
  by_cases hl : s.locked
  · simp [hl]
  · simp only [hl, Bool.false_eq_true, if_false]
    rw [claimAirdropForToken_locked _ _ _ _ rfl]

lemma depositTokens_ok_state {w : World} {s : ContractState} {c t a : Nat}
    {s1 : ContractState} {w1 : World}
    (h : depositTokens w s c t a = .ok (s1, w1)) : s1 = s := by
  unfold depositTokens at h
  split_ifs at h
  split at h
  · injection h with h2
    injection h2 with hs hw
    exact hs.symm
  · cases h

lemma withdrawTokens_ok_state {w : World} {s : ContractState} {c t a : Nat}
    {s1 : ContractState} {w1 : World}
    (h : withdrawTokens w s c t a = .ok (s1, w1)) : s1 = s := by
  unfold withdrawTokens at h
  split_ifs at h
  split at h
  · injection h with h2
    injection h2 with hs hw
    exact hs.symm
  · cases h

lemma emergencyWithdraw_ok_state {w : World} {s : ContractState} {c t : Nat}
    {s1 : ContractState} {w1 : World}
    (h : emergencyWithdraw w s c t = .ok (s1, w1)) : s1 = s := by
  unfold emergencyWithdraw at h
  split_ifs at h
  · injection h with h2
    injection h2 with hs hw
    exact hs.symm
  · split at h
    · injection h with h2
      injection h2 with hs hw
      exact hs.symm
    · cases h

lemma rescueTokens_ok_state {w : World} {s : ContractState} {c t d a : Nat}
    {s1 : ContractState} {w1 : World}
    (h : rescueTokens w s c t d a = .ok (s1, w1)) : s1 = s := by
  unfold rescueTokens at h
  split_ifs at h
  split at h
  · injection h with h2
    injection h2 with hs hw
    exact hs.symm
  · cases h

lemma rescueAllTokens_ok_state {w : World} {s : ContractState} {c t d : Nat}
    {s1 : ContractState} {w1 : World}
    (h : rescueAllTokens w s c t d = .ok (s1, w1)) : s1 = s := by
  unfold rescueAllTokens at h
  split_ifs at h
  · injection h with h2
    injection h2 with hs hw
    exact hs.symm
  · split at h
    · injection h with h2
      injection h2 with hs hw
      exact hs.symm
    · cases h

lemma setAirdropConfig_ok_iff {s : ContractState} {c t a : Nat} {act : Bool}
    {s1 : ContractState} :
    setAirdropConfig s c t a act = .ok s1 ↔
      c = s.owner ∧ t ≠ 0 ∧
      s1 = { s with tokenConfigs := updFn s.tokenConfigs t
                        ({ s.tokenConfigs t with amount := a, isActive := act }) } := by
  unfold setAirdropConfig
  split_ifs with h1 h2 <;> simp_all [eq_comm]

lemma setAirdropAmount_ok_iff {s : ContractState} {c a : Nat}
    {s1 : ContractState} :
    setAirdropAmount s c a = .ok s1 ↔
      c = s.owner ∧ s.defaultToken ≠ 0 ∧
      s1 = { s with tokenConfigs := updFn s.tokenConfigs s.defaultToken
                        ({ s.tokenConfigs s.defaultToken with amount := a, isActive := true }) } := by
  unfold setAirdropAmount
  split_ifs with h1 h2 <;> simp_all [eq_comm]

lemma step_ok_inv {w : World} {s : ContractState} {op : Op}
    {s1 : ContractState} {w1 : World}
    (h : step w s op = .ok (s1, w1)) :
    s1.owner = s.owner ∧ s1.defaultToken = s.defaultToken ∧
    s1.locked = s.locked ∧
    (∀ T A, s.hasClaimed T A = true → s1.hasClaimed T A = true) := by
  cases op with
  | claimAirdrop c =>
      rw [show step w s (.claimAirdrop c) = claimAirdrop w s c from rfl,
        claimAirdrop_err] at h
      cases h
  | claimAirdropForToken c t =>
      rw [show step w s (.claimAirdropForToken c t) =
        claimAirdropForToken w s c t from rfl] at h
      rcases claimAirdropForToken_ok_iff.mp h with ⟨hl, s2, hin, hs1⟩
      rcases claimInner_ok_iff.mp hin with ⟨-, -, -, -, -, -, -, -, hmark⟩
      subst hs1
      subst hmark
      refine ⟨rfl, rfl, by simp [hl], ?_⟩
      intro T A hTA
      have hmk := claimMark_hasClaimed { s with locked := true } c t T A
      by_cases hc : T = t ∧ A = c <;> simp_all
  | setAirdropConfig c t a act =>
      simp only [step, Except.map] at h
      cases hset : setAirdropConfig s c t a act with
      | ok s2 =>
          rw [hset] at h
          injection h with h2
          injection h2 with hs hw
          rcases setAirdropConfig_ok_iff.mp hset with ⟨-, -, hs2⟩
          subst hs
          subst hs2
          exact ⟨rfl, rfl, rfl, fun T A hTA => hTA⟩
      | error e => rw [hset] at h; cases h
  | setAirdropAmount c a =>
      simp only [step, Except.map] at h
      cases hset : setAirdropAmount s c a with
      | ok s2 =>
          rw [hset] at h
          injection h with h2
          injection h2 with hs hw
          rcases setAirdropAmount_ok_iff.mp hset with ⟨-, -, hs2⟩
          subst hs
          subst hs2
          exact ⟨rfl, rfl, rfl, fun T A hTA => hTA⟩
      | error e => rw [hset] at h; cases h
  | depositTokens c t a =>
      have := depositTokens_ok_state h
      subst this
      exact ⟨rfl, rfl, rfl, fun T A hTA => hTA⟩
  | depositTokensDefault c a =>
      have := depositTokens_ok_state h
      subst this
      exact ⟨rfl, rfl, rfl, fun T A hTA => hTA⟩
  | withdrawTokens c t a =>
      have := withdrawTokens_ok_state h
      subst this
      exact ⟨rfl, rfl, rfl, fun T A hTA => hTA⟩
  | withdrawTokensDefault c a =>
      have := withdrawTokens_ok_state h
      subst this
      exact ⟨rfl, rfl, rfl, fun T A hTA => hTA⟩
  | emergencyWithdraw c t =>
      have := emergencyWithdraw_ok_state h
      subst this
      exact ⟨rfl, rfl, rfl, fun T A hTA => hTA⟩
  | emergencyWithdrawDefault c =>
      have := emergencyWithdraw_ok_state h
      subst this
      exact ⟨rfl, rfl, rfl, fun T A hTA => hTA⟩
  | rescueTokens c t d a =>
      have := rescueTokens_ok_state h
      subst this
      exact ⟨rfl, rfl, rfl, fun T A hTA => hTA⟩
  | rescueAllTokens c t d =>
      have := rescueAllTokens_ok_state h
      subst this
      exact ⟨rfl, rfl, rfl, fun T A hTA => hTA⟩

lemma execOp_inv (w : World) (s : ContractState) (op : Op) :
    (execOp w s op).owner = s.owner ∧
    (execOp w s op).defaultToken = s.defaultToken ∧
    (execOp w s op).locked = s.locked ∧
    (∀ T A, s.hasClaimed T A = true → (execOp w s op).hasClaimed T A = true) := by
  unfold execOp
  cases hst : step w s op with
  | ok p =>
      cases p with
      | mk s1 w1 => exact step_ok_inv hst
  | error e => exact ⟨rfl, rfl, rfl, fun _ _ h => h⟩

lemma run_inv (l : List (World × Op)) (s : ContractState) :
    (run s l).owner = s.owner ∧
    (run s l).defaultToken = s.defaultToken ∧
    (run s l).locked = s.locked ∧
    (∀ T A, s.hasClaimed T A = true → (run s l).hasClaimed T A = true) := by
  induction l generalizing s with
  | nil => exact ⟨rfl, rfl, rfl, fun _ _ h => h⟩
  | cons p l ih =>
      cases p with
      | mk w op =>
          rcases execOp_inv w s op with ⟨h1, h2, h3, h4⟩
          rcases ih (execOp w s op) with ⟨g1, g2, g3, g4⟩
          exact ⟨g1.trans h1, g2.trans h2, g3.trans h3,
            fun T A h => g4 T A (h4 T A h)⟩

lemma ctor_ok_iff {d tok : Nat} {s0 : ContractState}
    (h : ctor d tok = .ok s0) :
    tok ≠ 0 ∧ s0.owner = d ∧ s0.defaultToken = tok ∧
    s0.hasClaimed = (fun _ _ => false) ∧ s0.locked = false ∧
    s0.tokenConfigs = updFn (fun _ => AirdropConfig.zero) tok
      { amount := 1000000000000 * 10 ^ 18
        isActive := true
        totalClaimed := 0
        totalRecipients := 0 } := by
  unfold ctor at h
  split_ifs at h with h0
  injection h with h2
  subst h2
  exact ⟨h0, rfl, rfl, rfl, rfl, rfl⟩

/-- C2: the owner identity is fixed at construction; no operation exposed by
the contract changes which identity passes the owner check — after any
sequence of transactions the stored owner is still the deployer. -/
theorem owner_fixed_forever (d tok : Nat) (s0 : ContractState)
    (h : ctor d tok = .ok s0) (l : List (World × Op)) :
    (run s0 l).owner = d := by
  rcases ctor_ok_iff h with ⟨-, hown, -⟩
  rw [(run_inv l s0).1, hown]

/-- Witness for C2 at a concrete deployment and one transaction. -/
theorem owner_fixed_forever_witness :
    (run exState [(exWorld, Op.setAirdropAmount 1 0)]).owner = 1 :=
  owner_fixed_forever 1 7 exState rfl [(exWorld, Op.setAirdropAmount 1 0)]

lemma claimInner_already {w : World} {s : ContractState} {caller token : Nat}
    (h1 : token ≠ 0) (h2 : s.hasClaimed token caller = true) :
    claimInner w s caller token = .error .alreadyClaimed := by
  unfold claimInner
  simp [h1, h2]

lemma claimAirdropForToken_already {w : World} {s : ContractState}
    {caller token : Nat} (hl : s.locked = false) (h1 : token ≠ 0)
    (h2 : s.hasClaimed token caller = true) :
    claimAirdropForToken w s caller token = .error .alreadyClaimed := by
  unfold claimAirdropForToken
  simp only [hl, Bool.false_eq_true, if_false]
  rw [claimInner_already h1 (by simpa using h2)]

/-- C4: once a claim for (token, caller) succeeds, `hasClaimed` stays `true`
after every subsequent sequence of operations, and a later claim for the same
pair fails with `AlreadyClaimed` and leaves storage unchanged. -/
theorem claim_is_permanent (w : World) (s : ContractState) (caller token : Nat)
    (s1 : ContractState) (w1 : World)
    (h : claimAirdropForToken w s caller token = .ok (s1, w1)) :
    ∀ (l : List (World × Op)) (w2 : World),
      (run s1 l).hasClaimed token caller = true ∧
      claimAirdropForToken w2 (run s1 l) caller token = .error .alreadyClaimed ∧
      execOp w2 (run s1 l) (.claimAirdropForToken caller token) = run s1 l := by
  intro l w2
  rcases claimAirdropForToken_ok_iff.mp h with ⟨hl, s2, hin, hs1⟩
  rcases claimInner_ok_iff.mp hin with ⟨h1, -, -, -, -, -, -, -, hmark⟩
  have hclaimed : s1.hasClaimed token caller = true := by
    subst hs1
    subst hmark
    have := claimMark_hasClaimed { s with locked := true } caller token token caller
    simp_all
  have hlock : s1.locked = false := by
    subst hs1
    rfl
  have hrc : (run s1 l).hasClaimed token caller = true :=
    (run_inv l s1).2.2.2 token caller hclaimed
  have hrl : (run s1 l).locked = false := by
    rw [(run_inv l s1).2.2.1, hlock]
  have herr := claimAirdropForToken_already (w := w2) hrl h1 hrc
  refine ⟨hrc, herr, ?_⟩
  simp [execOp, step, herr]

/-- Witness for C4 with a concrete successful claim and the empty tail. -/
theorem claim_is_permanent_witness :
    (run exClaimed []).hasClaimed 7 5 = true ∧
    claimAirdropForToken exWorld (run exClaimed []) 5 7 = .error .alreadyClaimed ∧
    execOp exWorld (run exClaimed []) (.claimAirdropForToken 5 7) = run exClaimed [] :=
  claim_is_permanent exWorld exState 5 7 exClaimed exWorldAfter (by rfl) [] exWorld

/-- C3 (amended): if the outbound transfer fails the whole claim reverts and
storage is unchanged; the claim record, `totalClaimed` and `totalRecipients`
are all updated before the external transfer call, and a reentrant claim for
the same (token, claimant) issued from within the transfer fails — with the
reentrancy-guard error, since the guard fires before the `AlreadyClaimed`
check (the record is nonetheless already `true` at that point). -/
theorem transfer_failure_reverts_claim (w : World) (s : ContractState)
    (caller token : Nat)
    (hl : s.locked = false)
    (h1 : token ≠ 0)
    (h2 : s.hasClaimed token caller = false)
    (h3 : (s.tokenConfigs token).isActive = true)
    (h4 : (s.tokenConfigs token).amount ≠ 0)
    (h5 : (s.tokenConfigs token).amount ≤ w.balances token contractAddr)
    (h6 : (s.tokenConfigs token).totalClaimed + (s.tokenConfigs token).amount < U256)
    (h7 : (s.tokenConfigs token).totalRecipients + 1 < U256)
    (h8 : w.transferOk token contractAddr caller (s.tokenConfigs token).amount = false) :
    claimAirdropForToken w s caller token = .error .transferFailed ∧
    execOp w s (.claimAirdropForToken caller token) = s ∧
    (claimMark { s with locked := true } caller token).hasClaimed token caller = true ∧
    ∀ w2 : World,
      claimAirdropForToken w2 (claimMark { s with locked := true } caller token)
        caller token = .error .reentrancy := by
  have hfail : claimAirdropForToken w s caller token = .error .transferFailed := by
    unfold claimAirdropForToken claimInner
    simp [hl, h1, h2, h3, h4, h8, World.move, not_lt.mpr h5, not_le.mpr h6,
      not_le.mpr h7]
  refine ⟨hfail, by simp [execOp, step, hfail], ?_, ?_⟩
  · have := claimMark_hasClaimed { s with locked := true } caller token token caller
    simp_all
  · intro w2
    exact claimAirdropForToken_locked _ _ _ _ rfl

/-- Witness for C3 (amended) at a funded default token whose transfer call
fails. -/
theorem transfer_failure_reverts_claim_witness :
    claimAirdropForToken failWorld exState 5 7 = .error .transferFailed ∧
    execOp failWorld exState (.claimAirdropForToken 5 7) = exState ∧
    (claimMark { exState with locked := true } 5 7).hasClaimed 7 5 = true ∧
    ∀ w2 : World,
      claimAirdropForToken w2 (claimMark { exState with locked := true } 5 7)
        5 7 = .error .reentrancy :=
  transfer_failure_reverts_claim failWorld exState 5 7 rfl (by decide) rfl rfl
    (by decide) (by decide) (by decide) (by decide) rfl

lemma claimAirdropForToken_error_iff {w : World} {s : ContractState}
    {a t : Nat} (hl : s.locked = false) (e : Err) :
    claimAirdropForToken w s a t = .error e ↔
      claimInner w { s with locked := true } a t = .error e := by
  unfold claimAirdropForToken
  simp only [hl, Bool.false_eq_true, if_false]
  cases hmv : claimInner w { s with locked := true } a t with
  | ok p =>
      cases p with
      | mk s2 w2 => simp
  | error e2 => simp

set_option linter.unusedTactic false in
lemma claimInner_error_chain (w : World) (s : ContractState) (a t : Nat) :
    (claimInner w s a t = .error .invalidToken ↔ t = 0) ∧
    (claimInner w s a t = .error .alreadyClaimed ↔
      t ≠ 0 ∧ s.hasClaimed t a = true) ∧
    (claimInner w s a t = .error .notActive ↔
      t ≠ 0 ∧ s.hasClaimed t a = false ∧ (s.tokenConfigs t).isActive = false) ∧
    (claimInner w s a t = .error .amountUnset ↔
      t ≠ 0 ∧ s.hasClaimed t a = false ∧ (s.tokenConfigs t).isActive = true ∧
      (s.tokenConfigs t).amount = 0) ∧
    (claimInner w s a t = .error .insufficientFunds ↔
      t ≠ 0 ∧ s.hasClaimed t a = false ∧ (s.tokenConfigs t).isActive = true ∧
      0 < (s.tokenConfigs t).amount ∧
      w.balances t contractAddr < (s.tokenConfigs t).amount) := by
  unfold claimInner
  split_ifs with c1 c2 c3 c4 c5 c6 c7 <;>
    (try cases hmv : w.move t contractAddr a ((s.tokenConfigs t).amount)) <;>
    (try have hnl : ¬ w.balances t contractAddr < (s.tokenConfigs t).amount :=
      not_lt.mpr c5) <;>
    simp_all [Nat.pos_iff_ne_zero]

/-- C5: claim preconditions are checked in the fixed order non-null token,
not already claimed, active, amount set, sufficient custodial balance; each
error is reported exactly when the earlier checks pass and its own check
fails, and a failed claim has no effects. -/
theorem claim_checks_in_order (w : World) (s : ContractState) (a t : Nat)
    (hl : s.locked = false) :
    (claimAirdropForToken w s a t = .error .invalidToken ↔ t = 0) ∧
    (claimAirdropForToken w s a t = .error .alreadyClaimed ↔
      t ≠ 0 ∧ s.hasClaimed t a = true) ∧
    (claimAirdropForToken w s a t = .error .notActive ↔
      t ≠ 0 ∧ s.hasClaimed t a = false ∧ (s.tokenConfigs t).isActive = false) ∧
    (claimAirdropForToken w s a t = .error .amountUnset ↔
      t ≠ 0 ∧ s.hasClaimed t a = false ∧ (s.tokenConfigs t).isActive = true ∧
      (s.tokenConfigs t).amount = 0) ∧
    (claimAirdropForToken w s a t = .error .insufficientFunds ↔
      t ≠ 0 ∧ s.hasClaimed t a = false ∧ (s.tokenConfigs t).isActive = true ∧
      0 < (s.tokenConfigs t).amount ∧
      w.balances t contractAddr < (s.tokenConfigs t).amount) ∧
    (∀ e, claimAirdropForToken w s a t = .error e →
      execOp w s (.claimAirdropForToken a t) = s) := by
  have hch := claimInner_error_chain w { s with locked := true } a t
  refine ⟨?_, ?_, ?_, ?_, ?_, ?_⟩
  · rw [claimAirdropForToken_error_iff hl]
    simpa using hch.1
  · rw [claimAirdropForToken_error_iff hl]
    simpa using hch.2.1
  · rw [claimAirdropForToken_error_iff hl]
    simpa using hch.2.2.1
  · rw [claimAirdropForToken_error_iff hl]
    simpa using hch.2.2.2.1
  · rw [claimAirdropForToken_error_iff hl]
    simpa using hch.2.2.2.2
  · intro e he
    simp [execOp, step, he]

/-- Witness for C5 at a concrete state (null token input). -/
theorem claim_checks_in_order_witness :
    (claimAirdropForToken exWorld exState 5 0 = .error .invalidToken ↔ 0 = 0) ∧
    (claimAirdropForToken exWorld exState 5 0 = .error .alreadyClaimed ↔
      0 ≠ 0 ∧ exState.hasClaimed 0 5 = true) ∧
    (claimAirdropForToken exWorld exState 5 0 = .error .notActive ↔
      0 ≠ 0 ∧ exState.hasClaimed 0 5 = false ∧
      (exState.tokenConfigs 0).isActive = false) ∧
    (claimAirdropForToken exWorld exState 5 0 = .error .amountUnset ↔
      0 ≠ 0 ∧ exState.hasClaimed 0 5 = false ∧
      (exState.tokenConfigs 0).isActive = true ∧
      (exState.tokenConfigs 0).amount = 0) ∧
    (claimAirdropForToken exWorld exState 5 0 = .error .insufficientFunds ↔
      0 ≠ 0 ∧ exState.hasClaimed 0 5 = false ∧
      (exState.tokenConfigs 0).isActive = true ∧
      0 < (exState.tokenConfigs 0).amount ∧
      exWorld.balances 0 contractAddr < (exState.tokenConfigs 0).amount) ∧
    (∀ e, claimAirdropForToken exWorld exState 5 0 = .error e →
      execOp exWorld exState (.claimAirdropForToken 5 0) = exState) :=
  claim_checks_in_order exWorld exState 5 0 rfl

/-- C8: an owner call of `setAirdropConfig` with a non-null token always
succeeds and overwrites `amount` (including 0) and `isActive`, while leaving
the token totals, every other token configuration, all claim records and
the identity fields unchanged. -/
theorem setAirdropConfig_overwrites (s : ContractState)
    (caller token amount : Nat) (act : Bool)
    (h1 : caller = s.owner) (h2 : token ≠ 0) :
    ∃ s1, setAirdropConfig s caller token amount act = .ok s1 ∧
      (s1.tokenConfigs token).amount = amount ∧
      (s1.tokenConfigs token).isActive = act ∧
      (s1.tokenConfigs token).totalClaimed = (s.tokenConfigs token).totalClaimed ∧
      (s1.tokenConfigs token).totalRecipients =
        (s.tokenConfigs token).totalRecipients ∧
      (∀ T, T ≠ token → s1.tokenConfigs T = s.tokenConfigs T) ∧
      s1.hasClaimed = s.hasClaimed ∧
      s1.owner = s.owner ∧ s1.defaultToken = s.defaultToken ∧
      s1.locked = s.locked := by
  refine ⟨_, setAirdropConfig_ok_iff.mpr ⟨h1, h2, rfl⟩, ?_⟩
  refine ⟨by simp [updFn], by simp [updFn], by simp [updFn], by simp [updFn],
    ?_, rfl, rfl, rfl, rfl⟩
  intro T hT
  simp [updFn, hT]

/-- Witness for C8 setting amount 0 with isActive true on token 9. -/
theorem setAirdropConfig_overwrites_witness :
    ∃ s1, setAirdropConfig exState 1 9 0 true = .ok s1 ∧
      (s1.tokenConfigs 9).amount = 0 ∧
      (s1.tokenConfigs 9).isActive = true ∧
      (s1.tokenConfigs 9).totalClaimed = (exState.tokenConfigs 9).totalClaimed ∧
      (s1.tokenConfigs 9).totalRecipients =
        (exState.tokenConfigs 9).totalRecipients ∧
      (∀ T, T ≠ 9 → s1.tokenConfigs T = exState.tokenConfigs T) ∧
      s1.hasClaimed = exState.hasClaimed ∧
      s1.owner = exState.owner ∧ s1.defaultToken = exState.defaultToken ∧
      s1.locked = exState.locked :=
  setAirdropConfig_overwrites exState 1 9 0 true rfl (by decide)

/-- C9: `emergencyWithdraw` by the owner on a non-null token with zero
custodial balance succeeds, performs no transfer, and changes neither the
contract storage nor the token world. -/
theorem emergencyWithdraw_zero_balance_noop (w : World) (s : ContractState)
    (caller token : Nat)
    (h1 : caller = s.owner) (h2 : token ≠ 0)
    (h3 : w.balances token contractAddr = 0) :
    emergencyWithdraw w s caller token = .ok (s, w) := by
  unfold emergencyWithdraw
  simp [h1, h2, h3]

/-- Witness for C9 on token 9, which has zero balance in `exWorld`. -/
theorem emergencyWithdraw_zero_balance_noop_witness :
    emergencyWithdraw exWorld exState 1 9 = .ok (exState, exWorld) :=
  emergencyWithdraw_zero_balance_noop exWorld exState 1 9 rfl (by decide) rfl

/-- C10: construction with a non-null default token immediately installs the
configuration amount = 10^12 · 10^18, active, zero totals — live without any
`setAirdropConfig` call — and the owner-only `setAirdropAmount` overwrites
the default token amount (even with 0) and forces `isActive := true`,
leaving the totals unchanged. -/
theorem ctor_default_config_live (d tok : Nat) (htok : tok ≠ 0) :
    (∃ s0, ctor d tok = .ok s0 ∧
      s0.tokenConfigs tok =
        { amount := 1000000000000 * 10 ^ 18
          isActive := true
          totalClaimed := 0
          totalRecipients := 0 } ∧
      s0.owner = d ∧ s0.defaultToken = tok) ∧
    (∀ (s : ContractState) (caller newAmount : Nat),
      caller = s.owner → s.defaultToken ≠ 0 →
      ∃ s1, setAirdropAmount s caller newAmount = .ok s1 ∧
        (s1.tokenConfigs s.defaultToken).amount = newAmount ∧
        (s1.tokenConfigs s.defaultToken).isActive = true ∧
        (s1.tokenConfigs s.defaultToken).totalClaimed =
          (s.tokenConfigs s.defaultToken).totalClaimed ∧
        (s1.tokenConfigs s.defaultToken).totalRecipients =
          (s.tokenConfigs s.defaultToken).totalRecipients) := by
  constructor
  · have h : ctor d tok = .ok
        { owner := d
          defaultToken := tok
          tokenConfigs := updFn (fun _ => AirdropConfig.zero) tok
            { amount := 1000000000000 * 10 ^ 18
              isActive := true
              totalClaimed := 0
              totalRecipients := 0 }
          hasClaimed := fun _ _ => false
          locked := false } := by
      unfold ctor
      simp [htok]
    exact ⟨_, h, by simp [updFn], rfl, rfl⟩
  · intro s caller newAmount h1 h2
    refine ⟨_, setAirdropAmount_ok_iff.mpr ⟨h1, h2, rfl⟩, ?_⟩
    exact ⟨by simp [updFn], by simp [updFn], by simp [updFn], by simp [updFn]⟩

/-- Witness for C10 at deployment (1, 7); its second component is applied at
amount 0 inside the theorem statement. -/
theorem ctor_default_config_live_witness :
    (∃ s0, ctor 1 7 = .ok s0 ∧
      s0.tokenConfigs 7 =
        { amount := 1000000000000 * 10 ^ 18
          isActive := true
          totalClaimed := 0
          totalRecipients := 0 } ∧
      s0.owner = 1 ∧ s0.defaultToken = 7) ∧
    (∀ (s : ContractState) (caller newAmount : Nat),
      caller = s.owner → s.defaultToken ≠ 0 →
      ∃ s1, setAirdropAmount s caller newAmount = .ok s1 ∧
        (s1.tokenConfigs s.defaultToken).amount = newAmount ∧
        (s1.tokenConfigs s.defaultToken).isActive = true ∧
        (s1.tokenConfigs s.defaultToken).totalClaimed =
          (s.tokenConfigs s.defaultToken).totalClaimed ∧
        (s1.tokenConfigs s.defaultToken).totalRecipients =
          (s.tokenConfigs s.defaultToken).totalRecipients) :=
  ctor_default_config_live 1 7 (by decide)

lemma execOp_totalClaimed (w : World) (s : ContractState) (op : Op) (T : Nat) :
    ((execOp w s op).tokenConfigs T).totalClaimed =
      (s.tokenConfigs T).totalClaimed + (claimEvent w s T op).sum := by
  cases op with
  | claimAirdrop c =>
      simp [execOp, step, claimAirdrop_err, claimEvent, stepOk]
  | claimAirdropForToken c t =>
      cases hst : step w s (.claimAirdropForToken c t) with
      | error e => simp [execOp, hst, claimEvent, stepOk]
      | ok p =>
          cases p with
          | mk s1 w1 =>
              have hok : claimAirdropForToken w s c t = .ok (s1, w1) := hst
              rcases claimAirdropForToken_ok_iff.mp hok with ⟨hl, s2, hin, hs1⟩
              rcases claimInner_ok_iff.mp hin with ⟨-, -, -, -, -, -, -, -, hmark⟩
              subst hs1
              subst hmark
              have hcm := claimMark_tokenConfigs { s with locked := true } c t T
              by_cases hT : t = T
              · subst hT
                simp_all [execOp, hst, claimEvent, stepOk]
              · have hT2 : ¬ (T = t) := fun hc => hT hc.symm
                simp_all [execOp, hst, claimEvent, stepOk]
  | setAirdropConfig c t a act =>
      cases hset : setAirdropConfig s c t a act with
      | error e => simp [execOp, step, hset, claimEvent, Except.map]
      | ok s1 =>
          rcases setAirdropConfig_ok_iff.mp hset with ⟨-, -, hs1⟩
          subst hs1
          by_cases hT : T = t <;>
            simp [execOp, step, hset, claimEvent, updFn, hT, Except.map]
  | setAirdropAmount c a =>
      cases hset : setAirdropAmount s c a with
      | error e => simp [execOp, step, hset, claimEvent, Except.map]
      | ok s1 =>
          rcases setAirdropAmount_ok_iff.mp hset with ⟨-, -, hs1⟩
          subst hs1
          by_cases hT : T = s.defaultToken <;>
            simp [execOp, step, hset, claimEvent, updFn, hT, Except.map]
  | depositTokens c t a =>
      cases hst : step w s (.depositTokens c t a) with
      | error e => simp [execOp, hst, claimEvent]
      | ok p =>
          cases p with
          | mk s1 w1 =>
              have := depositTokens_ok_state (show depositTokens w s c t a = .ok (s1, w1) from hst)
              subst this
              simp [execOp, hst, claimEvent]
  | depositTokensDefault c a =>
      cases hst : step w s (.depositTokensDefault c a) with
      | error e => simp [execOp, hst, claimEvent]
      | ok p =>
          cases p with
          | mk s1 w1 =>
              have := depositTokens_ok_state
                (show depositTokens w s c s.defaultToken a = .ok (s1, w1) from hst)
              subst this
              simp [execOp, hst, claimEvent]
  | withdrawTokens c t a =>
      cases hst : step w s (.withdrawTokens c t a) with
      | error e => simp [execOp, hst, claimEvent]
      | ok p =>
          cases p with
          | mk s1 w1 =>
              have := withdrawTokens_ok_state
                (show withdrawTokens w s c t a = .ok (s1, w1) from hst)
              subst this
              simp [execOp, hst, claimEvent]
  | withdrawTokensDefault c a =>
      cases hst : step w s (.withdrawTokensDefault c a) with
      | error e => simp [execOp, hst, claimEvent]
      | ok p =>
          cases p with
          | mk s1 w1 =>
              have := withdrawTokens_ok_state
                (show withdrawTokens w s c s.defaultToken a = .ok (s1, w1) from hst)
              subst this
              simp [execOp, hst, claimEvent]
  | emergencyWithdraw c t =>
      cases hst : step w s (.emergencyWithdraw c t) with
      | error e => simp [execOp, hst, claimEvent]
      | ok p =>
          cases p with
          | mk s1 w1 =>
              have := emergencyWithdraw_ok_state
                (show emergencyWithdraw w s c t = .ok (s1, w1) from hst)
              subst this
              simp [execOp, hst, claimEvent]
  | emergencyWithdrawDefault c =>
      cases hst : step w s (.emergencyWithdrawDefault c) with
      | error e => simp [execOp, hst, claimEvent]
      | ok p =>
          cases p with
          | mk s1 w1 =>
              have := emergencyWithdraw_ok_state
                (show emergencyWithdraw w s c s.defaultToken = .ok (s1, w1) from hst)
              subst this
              simp [execOp, hst, claimEvent]
  | rescueTokens c t d a =>
      cases hst : step w s (.rescueTokens c t d a) with
      | error e => simp [execOp, hst, claimEvent]
      | ok p =>
          cases p with
          | mk s1 w1 =>
              have := rescueTokens_ok_state
                (show rescueTokens w s c t d a = .ok (s1, w1) from hst)
              subst this
              simp [execOp, hst, claimEvent]
  | rescueAllTokens c t d =>
      cases hst : step w s (.rescueAllTokens c t d) with
      | error e => simp [execOp, hst, claimEvent]
      | ok p =>
          cases p with
          | mk s1 w1 =>
              have := rescueAllTokens_ok_state
                (show rescueAllTokens w s c t d = .ok (s1, w1) from hst)
              subst this
              simp [execOp, hst, claimEvent]

lemma run_totalClaimed (l : List (World × Op)) (s : ContractState) (T : Nat) :
    ((run s l).tokenConfigs T).totalClaimed =
      (s.tokenConfigs T).totalClaimed + (claimTrace s T l).sum := by
  induction l generalizing s with
  | nil => simp [run, claimTrace]
  | cons p l ih =>
      cases p with
      | mk w op =>
          calc ((run s ((w, op) :: l)).tokenConfigs T).totalClaimed
              = ((run (execOp w s op) l).tokenConfigs T).totalClaimed := rfl
            _ = ((execOp w s op).tokenConfigs T).totalClaimed +
                  (claimTrace (execOp w s op) T l).sum := ih (execOp w s op)
            _ = (s.tokenConfigs T).totalClaimed + (claimEvent w s T op).sum +
                  (claimTrace (execOp w s op) T l).sum := by
                rw [execOp_totalClaimed]
            _ = (s.tokenConfigs T).totalClaimed +
                  (claimTrace s T ((w, op) :: l)).sum := by
                simp [claimTrace, Nat.add_assoc]

/-- C6: starting from deployment, after any sequence of operations the
`totalClaimed` of a token equals the sum, over the successful claims of that
token in the trace, of the configured amount in effect when each claim
executed. -/
theorem totalClaimed_is_historical_sum (d tok : Nat) (s0 : ContractState)
    (h : ctor d tok = .ok s0) (T : Nat) (l : List (World × Op)) :
    ((run s0 l).tokenConfigs T).totalClaimed = (claimTrace s0 T l).sum := by
  have h0 : (s0.tokenConfigs T).totalClaimed = 0 := by
    rcases ctor_ok_iff h with ⟨-, -, -, -, -, hcfg⟩
    rw [hcfg]
    by_cases hT : T = tok <;> simp [updFn, hT, AirdropConfig.zero]
  rw [run_totalClaimed, h0, Nat.zero_add]

/-- Witness for C6: one successful claim followed by an amount change. -/
theorem totalClaimed_is_historical_sum_witness :
    ((run exState [(exWorld, Op.claimAirdropForToken 5 7),
        (exWorld, Op.setAirdropAmount 1 3)]).tokenConfigs 7).totalClaimed =
      (claimTrace exState 7 [(exWorld, Op.claimAirdropForToken 5 7),
        (exWorld, Op.setAirdropAmount 1 3)]).sum :=
  totalClaimed_is_historical_sum 1 7 exState rfl 7
    [(exWorld, Op.claimAirdropForToken 5 7), (exWorld, Op.setAirdropAmount 1 3)]

lemma claimMark_recipientsExact {s : ContractState} {c t : Nat}
    (h : recipientsExact s) (hnc : s.hasClaimed t c = false) :
    recipientsExact (claimMark s c t) := by
  intro T
  rcases h T with ⟨A, hA, hcard⟩
  have hcfg := claimMark_tokenConfigs s c t T
  by_cases hT : T = t
  · subst hT
    have hcA : c ∉ A := fun hc => by
      have := (hA c).mpr hc
      rw [hnc] at this
      cases this
    refine ⟨insert c A, ?_, ?_⟩
    · intro a
      have hup := claimMark_hasClaimed s c T T a
      by_cases hac : a = c
      · subst hac
        simp_all
      · simp only [Finset.mem_insert]
        simp_all
    · rw [Finset.card_insert_of_not_mem hcA, hcard]
      simp_all
  · refine ⟨A, ?_, ?_⟩
    · intro a
      have hup := claimMark_hasClaimed s c t T a
      simp_all
    · simp_all

lemma execOp_recipientsExact (w : World) (s : ContractState) (op : Op)
    (h : recipientsExact s) : recipientsExact (execOp w s op) := by
  cases hst : step w s op with
  | error e => simpa [execOp, hst] using h
  | ok p =>
      cases p with
      | mk s1 w1 =>
          have hgoal : recipientsExact s1 := by
            cases op with
            | claimAirdrop c =>
                rw [show step w s (.claimAirdrop c) = claimAirdrop w s c from rfl,
                  claimAirdrop_err] at hst
                cases hst
            | claimAirdropForToken c t =>
                have hok : claimAirdropForToken w s c t = .ok (s1, w1) := hst
                rcases claimAirdropForToken_ok_iff.mp hok with ⟨hl, s2, hin, hs1⟩
                rcases claimInner_ok_iff.mp hin with ⟨-, hnc, -, -, -, -, -, -, hmark⟩
                subst hs1
                subst hmark
                exact claimMark_recipientsExact (s := { s with locked := true }) h hnc
            | setAirdropConfig c t a act =>
                have hok : Except.map (fun s2 => (s2, w))
                    (setAirdropConfig s c t a act) = .ok (s1, w1) := hst
                cases hset : setAirdropConfig s c t a act with
                | error e => rw [hset] at hok; cases hok
                | ok s2 =>
                    rw [hset] at hok
                    injection hok with h2
                    injection h2 with hs hw
                    rcases setAirdropConfig_ok_iff.mp hset with ⟨-, -, hs2⟩
                    subst hs
                    subst hs2
                    intro T
                    rcases h T with ⟨A, hA, hcard⟩
                    refine ⟨A, hA, ?_⟩
                    by_cases hT : T = t <;> simp_all [updFn]
            | setAirdropAmount c a =>
                have hok : Except.map (fun s2 => (s2, w))
                    (setAirdropAmount s c a) = .ok (s1, w1) := hst
                cases hset : setAirdropAmount s c a with
                | error e => rw [hset] at hok; cases hok
                | ok s2 =>
                    rw [hset] at hok
                    injection hok with h2
                    injection h2 with hs hw
                    rcases setAirdropAmount_ok_iff.mp hset with ⟨-, -, hs2⟩
                    subst hs
                    subst hs2
                    intro T
                    rcases h T with ⟨A, hA, hcard⟩
                    refine ⟨A, hA, ?_⟩
                    by_cases hT : T = s.defaultToken <;> simp_all [updFn]
            | depositTokens c t a =>
                have := depositTokens_ok_state
                  (show depositTokens w s c t a = .ok (s1, w1) from hst)
                subst this
                exact h
            | depositTokensDefault c a =>
                have := depositTokens_ok_state
                  (show depositTokens w s c s.defaultToken a = .ok (s1, w1) from hst)
                subst this
                exact h
            | withdrawTokens c t a =>
                have := withdrawTokens_ok_state
                  (show withdrawTokens w s c t a = .ok (s1, w1) from hst)
                subst this
                exact h
            | withdrawTokensDefault c a =>
                have := withdrawTokens_ok_state
                  (show withdrawTokens w s c s.defaultToken a = .ok (s1, w1) from hst)
                subst this
                exact h
            | emergencyWithdraw c t =>
                have := emergencyWithdraw_ok_state
                  (show emergencyWithdraw w s c t = .ok (s1, w1) from hst)
                subst this
                exact h
            | emergencyWithdrawDefault c =>
                have := emergencyWithdraw_ok_state
                  (show emergencyWithdraw w s c s.defaultToken = .ok (s1, w1) from hst)
                subst this
                exact h
            | rescueTokens c t d a =>
                have := rescueTokens_ok_state
                  (show rescueTokens w s c t d a = .ok (s1, w1) from hst)
                subst this
                exact h
            | rescueAllTokens c t d =>
                have := rescueAllTokens_ok_state
                  (show rescueAllTokens w s c t d = .ok (s1, w1) from hst)
                subst this
                exact h
          simpa [execOp, hst] using hgoal

lemma run_recipientsExact (l : List (World × Op)) (s : ContractState)
    (h : recipientsExact s) : recipientsExact (run s l) := by
  induction l generalizing s with
  | nil => exact h
  | cons p l ih =>
      cases p with
      | mk w op => exact ih (execOp w s op) (execOp_recipientsExact w s op h)

/-- C7: in every state reachable from deployment, `totalRecipients` of each
token is the cardinality of the set of addresses whose claim flag is set,
and every single operation preserves this invariant. -/
theorem totalRecipients_counts_claimants (d tok : Nat) (s0 : ContractState)
    (h : ctor d tok = .ok s0) (l : List (World × Op)) :
    recipientsExact (run s0 l) ∧
    (∀ (s : ContractState) (w : World) (op : Op),
      recipientsExact s → recipientsExact (execOp w s op)) := by
  refine ⟨?_, fun s w op hs => execOp_recipientsExact w s op hs⟩
  have h0 : recipientsExact s0 := by
    rcases ctor_ok_iff h with ⟨-, -, -, hclm, -, hcfg⟩
    intro T
    refine ⟨∅, ?_, ?_⟩
    · intro a
      rw [hclm]
      simp
    · rw [hcfg]
      by_cases hT : T = tok <;> simp [updFn, hT, AirdropConfig.zero]
  exact run_recipientsExact l s0 h0

/-- Witness for C7 after one concrete successful claim. -/
theorem totalRecipients_counts_claimants_witness :
    recipientsExact (run exState [(exWorld, Op.claimAirdropForToken 5 7)]) ∧
    (∀ (s : ContractState) (w : World) (op : Op),
      recipientsExact s → recipientsExact (execOp w s op)) :=
  totalRecipients_counts_claimants 1 7 exState rfl
    [(exWorld, Op.claimAirdropForToken 5 7)]
